import Mathlib

/-!
Shallow embedding of `tools/bin/ecflow/processes/main/meteorological/get_med_metfcst.py`
(UW-Hydro/monitor).  Grid values are modelled as exact rationals; a gridded
variable is a flattened list of cell values.  Each definition embeds the
correspondingly named piece of the Python source.
-/

namespace GetMedMetfcst

/-- The canonical fill sentinel `-32767.` used by the script. -/
def fillValue : ℚ := -32767

/-- The corruption-repair threshold: `merge_ds[var].values < -30000` selects
cells reset to the sentinel after unit conversion. -/
def repairThreshold : ℚ := -30000

/-- A units conversion as performed by `cf_units.Unit.convert` for linear
units: an affine map `x ↦ scale * x + offset`. -/
structure AffineConv where
  scale : ℚ
  offset : ℚ
deriving DecidableEq, Repr

/-- Apply the affine conversion to one value. -/
def AffineConv.apply (c : AffineConv) (x : ℚ) : ℚ := c.scale * x + c.offset

/-- The Kelvin → Celsius conversion performed by cf_units for the temperature
variables: subtract 273.15. -/
def kelvinToCelsius : AffineConv := ⟨1, -(5463 / 20)⟩

/-- `units_in.convert(merge_ds[var].values[:], units_out, inplace=True)`:
the conversion applied to every cell. -/
def convertValues (c : AffineConv) (g : List ℚ) : List ℚ := g.map c.apply

/-- `merge_ds[var].values[merge_ds[var].values < -30000] = -32767.`:
reset every cell below the threshold to the sentinel. -/
def repairFill (g : List ℚ) : List ℚ :=
  g.map (fun x => if x < repairThreshold then fillValue else x)

/-- The per-variable normalization step of the loop over the tmmn and tmmx
variables:
unit conversion followed by sentinel repair. -/
def normalizeValues (c : AffineConv) (g : List ℚ) : List ℚ :=
  repairFill (convertValues c g)

/-- A variable series: cell values plus the recorded `units` attribute. -/
structure Series where
  values : List ℚ
  units : String
deriving DecidableEq, Repr

/-- The whole normalization of one designated variable: convert the values,
repair the sentinel, and record the canonical unit string
(the units attribute is set to `new_units[var]`). -/
def normalizeSeries (c : AffineConv) (newUnit : String) (s : Series) : Series :=
  { values := normalizeValues c s.values, units := newUnit }

/-- One cell of the consistency-enforcement step.  The pair is
`(tmin, tmax)`; `swap_values = ((tmin > tmax) & (tmax != -32767.))`, and at
selected cells the two component writes exchange the values. -/
def enforceCell (p : ℚ × ℚ) : ℚ × ℚ :=
  if p.2 < p.1 ∧ p.2 ≠ fillValue then (p.2, p.1) else p

/-- The enforcement applied over the whole grid, cell by cell. -/
def enforcedCells (tmin tmax : List ℚ) : List (ℚ × ℚ) :=
  (tmin.zip tmax).map enforceCell

/-- The two temperature value arrays of the merged dataset, tmmn and tmmx,
after the vectorized swap. -/
def enforcePair (tmin tmax : List ℚ) : List ℚ × List ℚ :=
  ((enforcedCells tmin tmax).map Prod.fst, (enforcedCells tmin tmax).map Prod.snd)

lemma enforcedCells_length (tmin tmax : List ℚ) :
    (enforcedCells tmin tmax).length = min tmin.length tmax.length := by
  simp [enforcedCells]

lemma enforceCell_min_le_max (p : ℚ × ℚ)
    (h : (enforceCell p).2 ≠ fillValue) : (enforceCell p).1 ≤ (enforceCell p).2 := by
  by_cases hc : p.2 < p.1 ∧ p.2 ≠ fillValue
  · simp only [enforceCell, if_pos hc]
    exact le_of_lt hc.1
  · simp only [enforceCell, if_neg hc] at h ⊢
    push_neg at hc
    rcases lt_or_le p.2 p.1 with hlt | hle
    · exact absurd (hc hlt) h
    · exact hle

lemma enforceCell_idem (p : ℚ × ℚ) : enforceCell (enforceCell p) = enforceCell p := by
  unfold enforceCell
  split
  · next hc =>
    have : ¬ ((p.2, p.1).2 < (p.2, p.1).1 ∧ (p.2, p.1).2 ≠ fillValue) := by
      intro h
      exact absurd h.1 (not_lt.mpr (le_of_lt hc.1))
    simp [this]
  · next hc => simp [hc]

/-- C2: after the consistency-enforcement step, wherever the maximum is not
the fill sentinel, the minimum is at most the maximum. -/
theorem consistency_ordering (tmin tmax : List ℚ) (i : ℕ)
    (h1 : i < (enforcePair tmin tmax).1.length)
    (h2 : i < (enforcePair tmin tmax).2.length)
    (hmax : (enforcePair tmin tmax).2[i] ≠ fillValue) :
    (enforcePair tmin tmax).1[i] ≤ (enforcePair tmin tmax).2[i] := by
  have hi : i < (enforcedCells tmin tmax).length := by
    simpa [enforcePair] using h1
  have e1 : (enforcePair tmin tmax).1[i] = ((enforcedCells tmin tmax).get ⟨i, hi⟩).1 := by
    simp [enforcePair]
  have e2 : (enforcePair tmin tmax).2[i] = ((enforcedCells tmin tmax).get ⟨i, hi⟩).2 := by
    simp [enforcePair]
  rw [e1, e2]
  rw [e2] at hmax
  have hz : i < (tmin.zip tmax).length := by simpa [enforcedCells] using hi
  have ec : (enforcedCells tmin tmax).get ⟨i, hi⟩ = enforceCell ((tmin.zip tmax).get ⟨i, hz⟩) := by
    simp [enforcedCells]
  rw [ec] at hmax ⊢
  exact enforceCell_min_le_max _ hmax

/-- Closed instance discharging the hypotheses of `consistency_ordering`. -/
theorem consistency_ordering_witness :
    (enforcePair [(10 : ℚ)] [(5 : ℚ)]).2.get ⟨0, by decide⟩ ≠ fillValue ∧
    (enforcePair [(10 : ℚ)] [(5 : ℚ)]).1.get ⟨0, by decide⟩ ≤
      (enforcePair [(10 : ℚ)] [(5 : ℚ)]).2.get ⟨0, by decide⟩ := by
  refine ⟨by decide, ?_⟩
  exact consistency_ordering [(10 : ℚ)] [(5 : ℚ)] 0 (by decide) (by decide) (by decide)

lemma enforceCell_frozen_of_max_fill (p : ℚ × ℚ) (h : p.2 = fillValue) :
    enforceCell p = p := by
  have : ¬ (p.2 < p.1 ∧ p.2 ≠ fillValue) := by
    intro hc
    exact hc.2 h
  simp [enforceCell, this]

/-- C6: wherever the maximum equals the fill sentinel, the enforcement step
leaves both the minimum and the maximum unchanged. -/
theorem consistency_frame_on_fill (tmin tmax : List ℚ) (i : ℕ)
    (hi1 : i < tmin.length) (hi2 : i < tmax.length)
    (h1 : i < (enforcePair tmin tmax).1.length)
    (h2 : i < (enforcePair tmin tmax).2.length)
    (hmax : tmax[i] = fillValue) :
    (enforcePair tmin tmax).1[i] = tmin[i] ∧ (enforcePair tmin tmax).2[i] = tmax[i] := by
  have hz : i < (tmin.zip tmax).length := by
    simp only [List.length_zip]
    omega
  have hcell : (tmin.zip tmax).get ⟨i, hz⟩ = (tmin[i], tmax[i]) := by
    simp
  have hi : i < (enforcedCells tmin tmax).length := by
    simpa [enforcePair] using h1
  have ec : (enforcedCells tmin tmax).get ⟨i, hi⟩ = enforceCell ((tmin.zip tmax).get ⟨i, hz⟩) := by
    simp [enforcedCells]
  have frozen : (enforcedCells tmin tmax).get ⟨i, hi⟩ = (tmin[i], tmax[i]) := by
    rw [ec, hcell, enforceCell_frozen_of_max_fill _ hmax]
  constructor
  · have e1 : (enforcePair tmin tmax).1[i] = ((enforcedCells tmin tmax).get ⟨i, hi⟩).1 := by
      simp [enforcePair]
    rw [e1, frozen]
  · have e2 : (enforcePair tmin tmax).2[i] = ((enforcedCells tmin tmax).get ⟨i, hi⟩).2 := by
      simp [enforcePair]
    rw [e2, frozen]

/-- Closed instance discharging the hypotheses of `consistency_frame_on_fill`:
a valid minimum paired with a sentinel maximum is left untouched. -/
theorem consistency_frame_on_fill_witness :
    ([(10 : ℚ)] : List ℚ).get ⟨0, by decide⟩ = 10 ∧ ([fillValue] : List ℚ).get ⟨0, by decide⟩ = fillValue ∧
    (enforcePair [(10 : ℚ)] [fillValue]).1.get ⟨0, by decide⟩ = 10 ∧
    (enforcePair [(10 : ℚ)] [fillValue]).2.get ⟨0, by decide⟩ = fillValue := by
  have h := consistency_frame_on_fill [(10 : ℚ)] [fillValue] 0
    (by decide) (by decide) (by decide) (by decide) (by decide)
  exact ⟨by decide, by decide, h.1, h.2⟩

/-- C9: the consistency-enforcement step is idempotent: re-applying the swap
to its own output changes nothing. -/
theorem consistency_idempotent (tmin tmax : List ℚ)
    (hval : ∀ x ∈ tmin ++ tmax, x = fillValue ∨ (-30000 : ℚ) < x) :
    enforcePair (enforcePair tmin tmax).1 (enforcePair tmin tmax).2 =
      enforcePair tmin tmax := by
  clear hval
  have hzip : ((enforcedCells tmin tmax).map Prod.fst).zip
      ((enforcedCells tmin tmax).map Prod.snd) = enforcedCells tmin tmax := by
    rw [List.zip_map']
    simp
  have hcells : enforcedCells ((enforcePair tmin tmax).1) ((enforcePair tmin tmax).2) =
      enforcedCells tmin tmax := by
    show ((((enforcedCells tmin tmax).map Prod.fst).zip
      ((enforcedCells tmin tmax).map Prod.snd)).map enforceCell) = _
    rw [hzip]
    unfold enforcedCells
    rw [List.map_map]
    exact List.map_congr_left fun p _ => enforceCell_idem p
  show (_, _) = (_, _)
  rw [hcells]

/-- Closed instance discharging the hypothesis of `consistency_idempotent`. -/
theorem consistency_idempotent_witness :
    (∀ x ∈ [(10 : ℚ), 5] ++ [5, fillValue], x = fillValue ∨ (-30000 : ℚ) < x) ∧
    enforcePair (enforcePair [(10 : ℚ), 5] [5, fillValue]).1
        (enforcePair [(10 : ℚ), 5] [5, fillValue]).2 =
      enforcePair [(10 : ℚ), 5] [5, fillValue] := by
  refine ⟨by decide, consistency_idempotent _ _ (by decide)⟩

/-- C10: after normalization every value is either exactly the fill sentinel
or at least the repair threshold `-30000`; nothing lies strictly between. -/
theorem normalized_range (c : AffineConv) (g : List ℚ) (x : ℚ)
    (hx : x ∈ normalizeValues c g) : x = fillValue ∨ repairThreshold ≤ x := by
  simp only [normalizeValues, repairFill, convertValues, List.map_map, List.mem_map] at hx
  obtain ⟨y, -, rfl⟩ := hx
  by_cases h : c.apply y < repairThreshold
  · left
    simp [h]
  · right
    simp only [Function.comp_apply, if_neg h]
    exact le_of_not_lt h

/-- Closed instance discharging the hypothesis of `normalized_range`. -/
theorem normalized_range_witness :
    (-(5463 / 20) : ℚ) ∈ normalizeValues kelvinToCelsius [0] ∧
    ((-(5463 / 20) : ℚ) = fillValue ∨ repairThreshold ≤ -(5463 / 20)) := by
  have hm : (-(5463 / 20) : ℚ) ∈ normalizeValues kelvinToCelsius [0] := by
    simp only [normalizeValues, convertValues, repairFill, List.map_cons, List.map_nil]
    norm_num [AffineConv.apply, kelvinToCelsius, repairThreshold, List.mem_singleton]
  exact ⟨hm, normalized_range kelvinToCelsius [0] _ hm⟩

lemma normalizeValues_length (c : AffineConv) (g : List ℚ) :
    (normalizeValues c g).length = g.length := by
  simp [normalizeValues, repairFill, convertValues]

/-- C3: a cell holding the fill sentinel before conversion holds exactly the
fill sentinel again after normalization, provided the conversion sends the
sentinel below the repair threshold (as Kelvin → Celsius does). -/
theorem sentinel_stability (c : AffineConv) (g : List ℚ) (i : ℕ)
    (hi : i < g.length) (h2 : i < (normalizeValues c g).length)
    (hconv : c.apply fillValue < repairThreshold)
    (hv : g[i] = fillValue) :
    (normalizeValues c g)[i] = fillValue := by
  simp only [normalizeValues, repairFill, convertValues, List.map_map, List.getElem_map,
    Function.comp_apply]
  rw [hv, if_pos hconv]

/-- Closed instance discharging the hypotheses of `sentinel_stability` with the
Kelvin → Celsius conversion. -/
theorem sentinel_stability_witness :
    kelvinToCelsius.apply fillValue < repairThreshold ∧
    ([fillValue] : List ℚ).get ⟨0, by decide⟩ = fillValue ∧
    (normalizeValues kelvinToCelsius [fillValue]).get ⟨0, by decide⟩ = fillValue := by
  have hc : kelvinToCelsius.apply fillValue < repairThreshold := by
    norm_num [kelvinToCelsius, AffineConv.apply, fillValue, repairThreshold]
  refine ⟨hc, by decide, ?_⟩
  exact sentinel_stability kelvinToCelsius [fillValue] 0 (by decide) (by decide)
    hc (by decide)

/-- C5 counterexample: the original value `-31000` is not the fill sentinel,
yet normalization stores the sentinel instead of the converted value, because
the converted value falls below the repair threshold. -/
theorem normalize_convert_counterexample :
    (-31000 : ℚ) ≠ fillValue ∧
    (normalizeSeries kelvinToCelsius "degC" ⟨[-31000], "K"⟩).values = [fillValue] ∧
    fillValue ≠ kelvinToCelsius.apply (-31000) := by
  refine ⟨by decide, ?_, ?_⟩
  · have h : kelvinToCelsius.apply (-31000) < repairThreshold := by
      norm_num [kelvinToCelsius, AffineConv.apply, repairThreshold]
    simp [normalizeSeries, normalizeValues, convertValues, repairFill, h]
  · norm_num [kelvinToCelsius, AffineConv.apply, fillValue]

/-- C5 amended: after normalization the recorded unit attribute equals the
canonical target unit, and every cell whose converted value does not fall
below the repair threshold (in particular every valid physical value) equals
the affine conversion of the original. -/
theorem normalize_units_and_values (c : AffineConv) (u : String) (s : Series) (i : ℕ)
    (hi : i < s.values.length) (h2 : i < (normalizeSeries c u s).values.length)
    (hth : ¬ c.apply s.values[i] < repairThreshold) :
    (normalizeSeries c u s).units = u ∧
    (normalizeSeries c u s).values[i] = c.apply s.values[i] := by
  refine ⟨rfl, ?_⟩
  have h2' : i < (normalizeValues c s.values).length := by
    simpa [normalizeSeries] using h2
  have e : (normalizeSeries c u s).values[i] = (normalizeValues c s.values).get ⟨i, h2'⟩ := by
    simp [normalizeSeries]
  rw [e]
  simp only [normalizeValues, repairFill, convertValues, List.map_map, List.get_eq_getElem,
    List.getElem_map, Function.comp_apply]
  rw [if_neg hth]

/-- Closed instance discharging the hypotheses of `normalize_units_and_values`:
300 K normalizes to 26.85 °C with the canonical unit recorded. -/
theorem normalize_units_and_values_witness :
    ¬ kelvinToCelsius.apply (300 : ℚ) < repairThreshold ∧
    (normalizeSeries kelvinToCelsius "degC" ⟨[300], "K"⟩).units = "degC" ∧
    (normalizeSeries kelvinToCelsius "degC" ⟨[300], "K"⟩).values.get ⟨0, by decide⟩ =
      kelvinToCelsius.apply (300 : ℚ) := by
  have hth : ¬ kelvinToCelsius.apply (300 : ℚ) < repairThreshold := by
    norm_num [kelvinToCelsius, AffineConv.apply, repairThreshold]
  have h := normalize_units_and_values kelvinToCelsius "degC" ⟨[300], "K"⟩ 0
    (by decide) (by decide) hth
  exact ⟨hth, h.1, h.2⟩

/-- The THREDDS URL for a variable code, as templated in the download loop. -/
def urlFor (var : String) : String :=
  "http://thredds.northwestknowledge.net:8080/thredds/dodsC/" ++
    "NWCSC_INTEGRATED_SCENARIOS_ALL_CLIMATE/" ++ "cfsv2_metdata_90day/" ++
    "cfsv2_metdata_forecast_" ++ var ++ "_daily.nc"

/-- The `varnames` mapping from variable code to descriptive name, in the
insertion order of the source dict. -/
def varnames : List (String × String) :=
  [("vs", "wind_speed"), ("tmmx", "air_temperature"), ("tmmn", "air_temperature"),
   ("srad", "surface_downwelling_shortwave_flux_in_air"),
   ("sph", "specific_humidity"), ("pr", "precipitation_amount"),
   ("pet", "potential_evapotranspiration")]

/-- A dataset: a finite map from variable name to its payload, the payload
identified here by the URL the data came from. -/
abbrev Dataset := List (String × String)

/-- `xds.rename(..., inplace=True)` on a variable name: every entry carrying
the old name is relabeled with the new one. -/
def renameVar (old new : String) (ds : Dataset) : Dataset :=
  ds.map fun p => if p.1 = old then (new, p.2) else p

/-- One iteration of the download loop: open the dataset for `var`, and when
its descriptive name is `air_temperature`, rename that variable to the short
code so that the tmmn and tmmx data stay distinct. -/
def fetchVariable (var vname : String) : Dataset :=
  let xds : Dataset := [(vname, urlFor var)]
  if vname = "air_temperature" then renameVar "air_temperature" var xds else xds

/-- `xr.merge(dlist)`: combine the per-variable datasets into one. -/
def mergeDatasets (dlist : List Dataset) : Dataset := dlist.flatten

/-- The dataset list built by the download loop, merged. -/
def fetchAll : Dataset := mergeDatasets (varnames.map fun p => fetchVariable p.1 p.2)

/-- C7: after the per-variable renames, the merged dataset carries the
minimum- and maximum-temperature data under the two distinct codes `tmmn`
and `tmmx`, each with its own source payload, and no shared
`air_temperature` entry remains to collide them. -/
theorem fetch_disambiguation :
    fetchAll.lookup "tmmx" = some (urlFor "tmmx") ∧
    fetchAll.lookup "tmmn" = some (urlFor "tmmn") ∧
    fetchAll.lookup "air_temperature" = none ∧
    urlFor "tmmx" ≠ urlFor "tmmn" := by
  exact ⟨rfl, rfl, rfl, by decide⟩

/-- Dataset-level metadata tracked through the merge: the label of the time
coordinate and the dimension order handed to downstream consumers. -/
structure DsMeta where
  timeLabel : String
  dimOrder : List String
deriving DecidableEq, Repr

/-- `merge_ds.rename(..., inplace=True)` on a dimension label: the time label
and every occurrence in the dimension order are relabeled. -/
def renameDim (old new : String) (m : DsMeta) : DsMeta :=
  { timeLabel := if m.timeLabel = old then new else m.timeLabel,
    dimOrder := m.dimOrder.map fun d => if d = old then new else d }

/-- `merge_ds.transpose(time, lat, lon)`: reorder the dimensions to the
requested order. -/
def transposeTo (order : List String) (m : DsMeta) : DsMeta :=
  { m with dimOrder := order }

/-- The metadata transformations the script performs between `xr.merge` and
handing the dataset to the regridder: rename `day` to `time`, then transpose
to `(time, lat, lon)`. -/
def prepareForRegrid (m : DsMeta) : DsMeta :=
  transposeTo ["time", "lat", "lon"] (renameDim "day" "time" m)

/-- C8: a merged dataset whose time coordinate is labeled `day` reaches the
regridder with the label renamed to `time` and the dimension order
canonicalized to `(time, lat, lon)`. -/
theorem merged_time_and_dims (m : DsMeta) (h : m.timeLabel = "day") :
    (prepareForRegrid m).timeLabel = "time" ∧
    (prepareForRegrid m).dimOrder = ["time", "lat", "lon"] := by
  refine ⟨?_, rfl⟩
  simp [prepareForRegrid, transposeTo, renameDim, h]

/-- Closed instance discharging the hypothesis of `merged_time_and_dims`. -/
theorem merged_time_and_dims_witness :
    (⟨"day", ["day", "lat", "lon"]⟩ : DsMeta).timeLabel = "day" ∧
    (prepareForRegrid ⟨"day", ["day", "lat", "lon"]⟩).timeLabel = "time" ∧
    (prepareForRegrid ⟨"day", ["day", "lat", "lon"]⟩).dimOrder =
      ["time", "lat", "lon"] := by
  have h := merged_time_and_dims ⟨"day", ["day", "lat", "lon"]⟩ rfl
  exact ⟨rfl, h.1, h.2⟩

/-- A calendar date, the model of the Python `datetime` values the script
manipulates (it only ever formats them without a time-of-day component). -/
structure Date where
  year : ℕ
  month : ℕ
  day : ℕ
deriving DecidableEq, Repr

/-- The Gregorian leap-year rule implemented by Python `datetime`. -/
def isLeap (y : ℕ) : Bool := (y % 4 == 0 && y % 100 != 0) || (y % 400 == 0)

/-- Number of days in month `m` of year `y`. -/
def daysInMonth (y m : ℕ) : ℕ :=
  if m = 2 then (if isLeap y then 29 else 28)
  else if m = 4 ∨ m = 6 ∨ m = 9 ∨ m = 11 then 30
  else 31

/-- `d + timedelta(days=1)`. -/
def nextDay (d : Date) : Date :=
  if d.day < daysInMonth d.year d.month then ⟨d.year, d.month, d.day + 1⟩
  else if d.month < 12 then ⟨d.year, d.month + 1, 1⟩
  else ⟨d.year + 1, 1, 1⟩

/-- Zero-padded two-digit rendering, as in the `%m` and `%d` directives. -/
def pad2 (n : ℕ) : String := if n < 10 then "0" ++ toString n else toString n

/-- `strftime` with the %Y-%m-%d format: a calendar date with no time-of-day
component. -/
def fmtDate (d : Date) : String :=
  toString d.year ++ "-" ++ pad2 d.month ++ "-" ++ pad2 d.day

/-- The three dates the script computes for the configuration rewrite:
`MED_START_DATE`, `MED_END_DATE` and `MED_VIC_SAVE_STATE`. -/
structure Window where
  startDate : String
  endDate : String
  saveState : String
deriving DecidableEq, Repr

/-- The window computation: `start_date` is the recorded end date of the prior
run plus one day, `end_date` is the last time value, and `vic_save_state` is
the end date plus one day, each rendered by `strftime` as %Y-%m-%d. -/
def computeWindow (priorEnd lastTs : Date) : Window :=
  { startDate := fmtDate (nextDay priorEnd),
    endDate := fmtDate lastTs,
    saveState := fmtDate (nextDay lastTs) }

/-- `pd.to_datetime` of the last element of the merged time axis feeding the
window
computation: the new end is the last timestamp of the merged series. -/
def computeWindowFromSeries (priorEnd : Date) (times : List Date) : Option Window :=
  times.getLast?.map (computeWindow priorEnd)

/-- C4: with prior end date 2024-01-10 and a merged series ending at
2024-04-09, the computed window is start 2024-01-11, end 2024-04-09 and
restart/save-state 2024-04-10, each a plain calendar date. -/
theorem window_arithmetic :
    computeWindowFromSeries ⟨2024, 1, 10⟩
        [⟨2024, 4, 7⟩, ⟨2024, 4, 8⟩, ⟨2024, 4, 9⟩] =
      some ⟨"2024-01-11", "2024-04-09", "2024-04-10"⟩ := by
  rfl

/-- `os.path.join` of the staging directory with med_temp_ plus the model
name: the private staging path,
unique per model name. -/
def tempPath (tempDir model : String) : String := tempDir ++ "/med_temp_" ++ model

/-- The persist-and-regrid tail of the loop, the filesystem modelled as the
list of existing paths and a `cdo.remapcon` failure as a raised exception
that skips the remaining statements:
`merge_ds.to_netcdf(temporary)`, then `cdo.remapcon(grid_file,
input=temporary, output=outfile)`, then `os.remove(temporary)`.
Returns whether the step completed without raising, paired with the
resulting filesystem. -/
def runRegridStep (fs : List String) (temp outfile : String)
    (remapconRaises : Bool) : Bool × List String :=
  let fs1 := temp :: fs
  if remapconRaises then (false, fs1)
  else (true, (outfile :: fs1).filter (fun p => p ≠ temp))

/-- C1 counterexample: when `cdo.remapcon` raises, the run aborts before
`os.remove`, and the staging file is still present afterwards. -/
theorem staging_cleanup_counterexample :
    (runRegridStep [] (tempPath "tmp" "CFSv2") "CFSv2.nc" true).1 = false ∧
    tempPath "tmp" "CFSv2" ∈
      (runRegridStep [] (tempPath "tmp" "CFSv2") "CFSv2.nc" true).2 := by
  exact ⟨rfl, by decide⟩

/-- C1 amended: after a successful regrid the staging file is absent, but on
a regrid error the staging file remains, since the removal statement is
never reached. -/
theorem staging_cleanup (fs : List String) (temp outfile : String) :
    ((runRegridStep fs temp outfile false).1 = true ∧
      temp ∉ (runRegridStep fs temp outfile false).2) ∧
    ((runRegridStep fs temp outfile true).1 = false ∧
      temp ∈ (runRegridStep fs temp outfile true).2) := by
  refine ⟨⟨rfl, ?_⟩, rfl, ?_⟩
  · intro hmem
    simp only [runRegridStep, if_neg (Bool.false_ne_true)] at hmem
    rcases List.mem_filter.1 hmem with ⟨-, hne⟩
    simp at hne
  · simp [runRegridStep]

end GetMedMetfcst
